import Mathlib

/-! Shallow embedding of the aggregation orchestrator in
`src/web_crawler_mcp/tools.py`.  The external collaborators — the article
extraction service (newspaper4k) and the feed reader (feedparser) — are
modelled as oracle parameters; an oracle raising an exception is modelled
by a dedicated outcome constructor.  JSON serialization round-trips are
modelled by the typed payloads themselves.  Python list slicing `xs[:n]`
with an `int` bound is modelled by `pySliceTo`, and the effect trace of a
`discover_news_from_rss` invocation (extraction calls and politeness
sleeps) is returned alongside its result. -/

/-- Structured fields produced by the Article Extraction Service on a
successful download + parse + nlp of one URL. -/
structure ArticleFields where
  title : String
  text : String
  summary : String
  keywords : List String
  authors : List String
  publish_date : Option String
  top_image : String
  images : List String
  movies : List String
  meta_description : String
  meta_lang : String
  meta_favicon : String
  meta_keywords : List String
  canonical_link : String
  deriving DecidableEq

/-- Outcome of one call to the Article Extraction Service:
success, an `ArticleException`, or any other raised exception. -/
inductive ExtractOutcome where
  | ok (article : ArticleFields)
  | articleError (msg : String)
  | unexpectedError (msg : String)
  deriving DecidableEq

/-- The Article Extraction Service, as an oracle from (url, language). -/
def ExtractOracle : Type := String → String → ExtractOutcome

/-- One item of a parsed feed; a missing attribute (`hasattr` false in the
source) is `none`. -/
structure FeedEntry where
  link : Option String
  title : Option String
  published : Option String
  summary : Option String
  deriving DecidableEq

/-- The Feed Reader: `.error` models `feedparser.parse` raising, `.ok`
returns the ordered entry list (possibly empty). -/
def FeedReader : Type := String → Except String (List FeedEntry)

/-- The canonical output unit (the dict built by `crawl_news_article`,
after the JSON round-trip).  A key absent from the dict is `none` / `[]`;
the three `rss_*` keys are only attached by `discover_news_from_rss`. -/
structure ArticleRecord where
  url : String
  title : Option String := none
  text : Option String := none
  summary : Option String := none
  keywords : List String := []
  authors : List String := []
  publish_date : Option String := none
  top_image : Option String := none
  images : List String := []
  movies : List String := []
  meta_description : Option String := none
  meta_lang : Option String := none
  meta_favicon : Option String := none
  meta_keywords : List String := []
  canonical_link : Option String := none
  success : Bool
  error : Option String := none
  rss_title : Option String := none
  rss_published : Option String := none
  rss_summary : Option String := none
  deriving DecidableEq

/-- Python `xs[:n]` for an `int` bound `n`: a nonnegative bound keeps the
first `n` elements, a negative bound drops the last `|n|` elements (and
yields `[]` when `|n| ≥ len`). -/
def pySliceTo (n : Int) (xs : List α) : List α :=
  if 0 ≤ n then xs.take n.toNat else xs.take (xs.length - n.natAbs)

/-- `crawl_news_article(url, language)`: delegates to the extraction
oracle; each `except` branch returns a failure record with a tagged error
message instead of raising. -/
def crawl_news_article (o : ExtractOracle) (url : String) (language : String) :
    ArticleRecord :=
  match o url language with
  | .ok a =>
      { url := url
        title := some a.title
        text := some a.text
        summary := some a.summary
        keywords := a.keywords
        authors := a.authors
        publish_date := a.publish_date
        top_image := some a.top_image
        images := a.images
        movies := a.movies
        meta_description := some a.meta_description
        meta_lang := some a.meta_lang
        meta_favicon := some a.meta_favicon
        meta_keywords := a.meta_keywords
        canonical_link := some a.canonical_link
        success := true }
  | .articleError msg =>
      { url := url, success := false, error := some ("Newspaper4k error: " ++ msg) }
  | .unexpectedError msg =>
      { url := url, success := false, error := some ("Unexpected error: " ++ msg) }

/-- `extract_multiple_news_articles(urls, language)`: one record per URL in
input order.  The per-URL `try/except` in the source is dead code here
because `crawl_news_article` is total (it returns its own failure records),
so the loop is exactly a map. -/
def extract_multiple_news_articles (o : ExtractOracle) (urls : List String)
    (language : String) : List ArticleRecord :=
  urls.map (fun url => crawl_news_article o url language)

/-- An observable effect of one `discover_news_from_rss` invocation:
an extraction call, or the `asyncio.sleep(1)` politeness delay. -/
inductive Event where
  | extract (url : String)
  | sleep
  deriving DecidableEq

/-- Is this event an extraction call? -/
def Event.isExtract : Event → Bool
  | .extract _ => true
  | .sleep => false

/-- Attach the three additive RSS metadata fields to an extracted record
(`article_json['rss_title'] = ...` etc.). -/
def withFeedMeta (r : ArticleRecord) (e : FeedEntry) : ArticleRecord :=
  { r with rss_title := e.title, rss_published := e.published, rss_summary := e.summary }

/-- The record one selected feed entry contributes: `none` when the entry
has no link, otherwise the extraction result plus RSS metadata. -/
def entryRecord (o : ExtractOracle) (e : FeedEntry) : Option ArticleRecord :=
  e.link.map (fun l => withFeedMeta (crawl_news_article o l "en") e)

/-- The per-entry loop of `discover_news_from_rss`: an entry with a link
yields an extraction call followed by the sleep; an entry without a link
yields only the sleep. -/
def discoverLoop (o : ExtractOracle) : List FeedEntry → List ArticleRecord × List Event
  | [] => ([], [])
  | e :: rest =>
      match e.link with
      | some l =>
          (withFeedMeta (crawl_news_article o l "en") e :: (discoverLoop o rest).1,
           Event.extract l :: Event.sleep :: (discoverLoop o rest).2)
      | none => ((discoverLoop o rest).1, Event.sleep :: (discoverLoop o rest).2)

/-- Result of `discover_news_from_rss`: a list of records, or the
`{success: false, error, rss_url}` feed-error object. -/
inductive DiscoverResult where
  | records (rs : List ArticleRecord)
  | feedError (rss_url : String) (error : String)
  deriving DecidableEq

/-- `discover_news_from_rss(rss_url, max_articles)` together with its
effect trace.  `articles_to_process = min(max_articles, len(entries))`,
then the loop runs over `entries[:articles_to_process]`. -/
def discover_news_from_rss (o : ExtractOracle) (rf : FeedReader)
    (rss_url : String) (max_articles : Int) : DiscoverResult × List Event :=
  match rf rss_url with
  | .error e => (.feedError rss_url ("RSS parsing error: " ++ e), [])
  | .ok entries =>
      if entries.isEmpty then
        (.feedError rss_url "No entries found in RSS feed", [])
      else
        let articles_to_process : Int := min max_articles (entries.length : Int)
        (.records (discoverLoop o (pySliceTo articles_to_process entries)).1,
         (discoverLoop o (pySliceTo articles_to_process entries)).2)

/-- The default feed list substituted when `rss_feeds` is `None`. -/
def default_rss_feeds : List String :=
  ["http://rss.cnn.com/rss/edition.rss",
   "https://feeds.bbci.co.uk/news/rss.xml",
   "https://rss.nytimes.com/services/xml/rss/nyt/HomePage.xml"]

/-- The record list a single feed contributes to `all_articles`: the
`isinstance(articles_data, list)` check keeps record lists and skips the
feed-error object. -/
def feedRecords (o : ExtractOracle) (rf : FeedReader) (feed : String)
    (max_results : Int) : List ArticleRecord :=
  match (discover_news_from_rss o rf feed max_results).1 with
  | .records rs => rs
  | .feedError _ _ => []

/-- The feed loop of `search_and_extract_news`: `all_articles` is extended
with each feed's record list, in input feed order. -/
def mergeFeeds (o : ExtractOracle) (rf : FeedReader) :
    List String → Int → List ArticleRecord
  | [], _ => []
  | feed :: rest, max_results =>
      feedRecords o rf feed max_results ++ mergeFeeds o rf rest max_results

/-- Does `needle` occur as a contiguous run of `haystack`? -/
def listInfixOf (needle : List Char) : List Char → Bool
  | [] => needle.isEmpty
  | c :: rest => needle.isPrefixOf (c :: rest) || listInfixOf needle rest

/-- Python substring test `needle in haystack`, on the character lists. -/
def pyIn (needle haystack : String) : Bool :=
  listInfixOf needle.data haystack.data

/-- Python `s.lower()` (ASCII case folding, as `str.lower` does for the
ASCII range). -/
def pyLower (s : String) : String :=
  String.mk (s.data.map Char.toLower)

/-- The relevance filter of `search_and_extract_news`: success is truthy
AND the (already lowercased) query occurs in the lowercased title, body
text, or auto-summary, each read with `.get(key, '')`. -/
def articleMatches (query_lower : String) (a : ArticleRecord) : Bool :=
  a.success &&
    (pyIn query_lower (pyLower (a.title.getD "")) ||
     pyIn query_lower (pyLower (a.text.getD "")) ||
     pyIn query_lower (pyLower (a.summary.getD "")))

/-- `search_and_extract_news(query, rss_feeds, max_results)`: merge every
feed's discovery output (each feed capped by `max_results`), filter by the
relevance predicate, return `matching_articles[:max_results]`. -/
def search_and_extract_news (o : ExtractOracle) (rf : FeedReader)
    (query : String) (rss_feeds : Option (List String)) (max_results : Int) :
    List ArticleRecord :=
  let feeds := rss_feeds.getD default_rss_feeds
  let all_articles := mergeFeeds o rf feeds max_results
  let query_lower := pyLower query
  let matching_articles := all_articles.filter (fun a => articleMatches query_lower a)
  pySliceTo max_results matching_articles

/-- The condensed view built by `get_news_summary` on success. -/
structure SummaryRecord where
  url : String
  title : Option String
  summary : String
  keywords : List String
  authors : List String
  publish_date : Option String
  top_image : Option String
  success : Bool
  deriving DecidableEq

/-- Result of `get_news_summary`: the summary record, or (when the
underlying extraction failed) that failure record returned unchanged. -/
inductive SummaryOutcome where
  | summarized (s : SummaryRecord)
  | failed (r : ArticleRecord)
  deriving DecidableEq

/-- Python `text.split('. ')`: cut at each leftmost non-overlapping
occurrence of the two-character separator `". "`. -/
def splitDotSpace : List Char → List (List Char)
  | '.' :: ' ' :: rest => [] :: splitDotSpace rest
  | c :: rest =>
      match splitDotSpace rest with
      | [] => [[c]]
      | g :: gs => (c :: g) :: gs
  | [] => [[]]

/-- Python `'. '.join(fragments)`. -/
def joinDotSpace : List (List Char) → List Char
  | [] => []
  | [g] => g
  | g :: gs => g ++ '.' :: ' ' :: joinDotSpace gs

/-- `get_news_summary(url, summary_length)`: extract once; on success use
the auto-summary, falling back (when it is empty) to rejoining the first
`summary_length` fragments of `text.split('. ')` with `'. '` plus a
trailing period; keywords are truncated to the first 10. -/
def get_news_summary (o : ExtractOracle) (url : String) (summary_length : Int) :
    SummaryOutcome :=
  let article_json := crawl_news_article o url "en"
  if article_json.success then
    let summary0 := article_json.summary.getD ""
    let summary :=
      if summary0 = "" then
        let sentences := splitDotSpace (article_json.text.getD "").data
        String.mk (joinDotSpace (pySliceTo summary_length sentences)) ++ "."
      else summary0
    .summarized
      { url := url
        title := article_json.title
        summary := summary
        keywords := pySliceTo 10 article_json.keywords
        authors := article_json.authors
        publish_date := article_json.publish_date
        top_image := article_json.top_image
        success := true }
  else .failed article_json

/-- The summary text of a `get_news_summary` outcome, when it produced one. -/
def summaryText : SummaryOutcome → Option String
  | .summarized s => some s.summary
  | .failed _ => none

/-- Default value of the `summary_length` parameter. -/
def default_summary_length : Int := 5

/-- Default value of the `max_articles` parameter of `discover_news_from_rss`. -/
def default_max_articles : Int := 10

/-- Default value of the `max_results` parameter of `search_and_extract_news`. -/
def default_max_results : Int := 5

/-- Error taxonomy of spec §7 for per-article failures. -/
inductive ErrorClass where
  | ExtractionFailure
  | InternalFailure
  deriving DecidableEq

/-- Classify an error description by its tag: `"Newspaper4k error: "` marks
a collaborator-signaled extraction failure, `"Unexpected error: "` an
internal one. -/
def classifyError (e : String) : Option ErrorClass :=
  if ("Newspaper4k error: ").data.isPrefixOf e.data then some .ExtractionFailure
  else if ("Unexpected error: ").data.isPrefixOf e.data then some .InternalFailure
  else none

/-- The error class carried by a record, if any. -/
def errorClassOf (r : ArticleRecord) : Option ErrorClass :=
  match r.error with
  | some e => classifyError e
  | none => none

/-- A well-formed record: success carries no error description; failure
carries one and leaves the content fields absent/empty. -/
def wellFormedRecord (r : ArticleRecord) : Prop :=
  (r.success = true → r.error = none) ∧
  (r.success = false →
    r.error.isSome = true ∧ r.title = none ∧ r.text = none ∧ r.summary = none ∧
    r.keywords = [] ∧ r.authors = [])

/-! ## Helper lemmas -/

theorem isPrefixOf_append_self (a rest : List Char) :
    a.isPrefixOf (a ++ rest) = true := by
  induction a with
  | nil => simp
  | cons c cs ih => simp [List.cons_append, ih]

theorem tag_isPrefixOf_tag_append (tag msg : String) :
    tag.data.isPrefixOf ((tag ++ msg)).data = true := by
  rw [String.data_append]
  exact isPrefixOf_append_self _ _

theorem newspaperTag_not_prefixOf_unexpected (msg : String) :
    ("Newspaper4k error: ").data.isPrefixOf (("Unexpected error: " ++ msg)).data = false := by
  have h1 : ("Newspaper4k error: ").data = 'N' :: ("ewspaper4k error: ").data := rfl
  have h2 : ("Unexpected error: ").data = 'U' :: ("nexpected error: ").data := rfl
  rw [String.data_append, h1, h2, List.cons_append, List.isPrefixOf_cons₂]
  simp

theorem classify_newspaper_msg (msg : String) :
    classifyError ("Newspaper4k error: " ++ msg) = some .ExtractionFailure := by
  simp [classifyError, tag_isPrefixOf_tag_append]

theorem classify_unexpected_msg (msg : String) :
    classifyError ("Unexpected error: " ++ msg) = some .InternalFailure := by
  simp [classifyError, tag_isPrefixOf_tag_append, newspaperTag_not_prefixOf_unexpected]

/-! ## Sample oracles for concrete instantiations -/

/-- An extraction oracle that always signals an `ArticleException`. -/
def oracleArticleErr : ExtractOracle := fun _ _ => .articleError "boom"

/-- An extraction oracle that always raises an unexpected exception. -/
def oracleUnexpectedErr : ExtractOracle := fun _ _ => .unexpectedError "boom"

/-! ## Claims -/

/-- C2: `extract_multiple_news_articles` returns a sequence with the same
length and order as the input, where the record at position `i` is exactly
the single-article extraction of `urls[i]`; a failing URL yields its
failure record in place without aborting the rest, and repeated URLs are
processed independently. -/
theorem extract_multiple_preserves_positions (o : ExtractOracle)
    (urls : List String) (language : String) :
    (extract_multiple_news_articles o urls language).length = urls.length ∧
    ∀ i : Nat, (extract_multiple_news_articles o urls language)[i]? =
      (urls[i]?).map (fun url => crawl_news_article o url language) := by
  refine ⟨by simp [extract_multiple_news_articles], fun i => ?_⟩
  simp [extract_multiple_news_articles]

/-- C3: `crawl_news_article` never raises past its boundary: every call
path returns a well-formed record; an `ArticleException` from the
collaborator yields `success = false` with an error classified as
`ExtractionFailure`, and any other unexpected failure yields
`success = false` with an error classified as `InternalFailure`. -/
theorem crawl_never_raises (o : ExtractOracle) (url language : String) :
    wellFormedRecord (crawl_news_article o url language) ∧
    (∀ msg, o url language = .articleError msg →
      (crawl_news_article o url language).success = false ∧
      errorClassOf (crawl_news_article o url language) = some .ExtractionFailure) ∧
    (∀ msg, o url language = .unexpectedError msg →
      (crawl_news_article o url language).success = false ∧
      errorClassOf (crawl_news_article o url language) = some .InternalFailure) := by
  refine ⟨?_, ?_, ?_⟩
  · cases h : o url language <;>
      simp [crawl_news_article, h, wellFormedRecord]
  · intro msg hm
    simp [crawl_news_article, hm, errorClassOf, classify_newspaper_msg]
  · intro msg hm
    simp [crawl_news_article, hm, errorClassOf, classify_unexpected_msg]

/-- C3 witness: at a concrete oracle that signals an `ArticleException`,
the record is well-formed, failed, and classified as an extraction
failure. -/
theorem crawl_never_raises_witness :
    wellFormedRecord (crawl_news_article oracleArticleErr "u" "en") ∧
    (crawl_news_article oracleArticleErr "u" "en").success = false ∧
    errorClassOf (crawl_news_article oracleArticleErr "u" "en") =
      some .ExtractionFailure := by
  have h := crawl_never_raises oracleArticleErr "u" "en"
  exact ⟨h.1, h.2.1 "boom" rfl⟩

theorem discoverLoop_fst (o : ExtractOracle) (es : List FeedEntry) :
    (discoverLoop o es).1 = es.filterMap (entryRecord o) := by
  induction es with
  | nil => rfl
  | cons e rest ih =>
      cases hl : e.link <;> simp [discoverLoop, entryRecord, hl, ih]

theorem discoverLoop_extract_count (o : ExtractOracle) (es : List FeedEntry) :
    ((discoverLoop o es).2).countP Event.isExtract =
      es.countP (fun e => e.link.isSome) := by
  induction es with
  | nil => rfl
  | cons e rest ih =>
      cases hl : e.link <;>
        simp [discoverLoop, hl, List.countP_cons, ih, Event.isExtract]

theorem length_filterMap_entryRecord (o : ExtractOracle) (es : List FeedEntry) :
    (es.filterMap (entryRecord o)).length =
      es.countP (fun e => e.link.isSome) := by
  induction es with
  | nil => rfl
  | cons e rest ih =>
      cases hl : e.link <;> simp [entryRecord, hl, List.countP_cons, ih]

theorem countP_link_isSome_eq_sub (es : List FeedEntry) :
    es.countP (fun e => e.link.isSome) =
      es.length - es.countP (fun e => e.link.isNone) := by
  induction es with
  | nil => rfl
  | cons e rest ih =>
      have hle : rest.countP (fun e => e.link.isNone) ≤ rest.length :=
        List.countP_le_length _
      cases hl : e.link
      · simp [List.countP_cons, hl, ih]
      · simp [List.countP_cons, hl, ih]
        omega

theorem discoverLoop_extract_next_sleep (o : ExtractOracle) (es : List FeedEntry) :
    ∀ (i : Nat) (u : String),
      ((discoverLoop o es).2)[i]? = some (Event.extract u) →
      ((discoverLoop o es).2)[i + 1]? = some Event.sleep := by
  induction es with
  | nil => intro i u h; simp [discoverLoop] at h
  | cons e rest ih =>
      intro i u h
      cases hl : e.link with
      | some l =>
          simp only [discoverLoop, hl] at h ⊢
          match i with
          | 0 => simp
          | 1 => simp at h
          | n + 2 =>
              simp only [List.getElem?_cons_succ] at h ⊢
              exact ih n u h
      | none =>
          simp only [discoverLoop, hl] at h ⊢
          match i with
          | 0 => simp at h
          | n + 1 =>
              simp only [List.getElem?_cons_succ] at h ⊢
              exact ih n u h

theorem pySliceTo_coe_min (k : Nat) (xs : List α) :
    pySliceTo (min (k : Int) (xs.length : Int)) xs = xs.take (min k xs.length) := by
  unfold pySliceTo
  rw [if_pos (by omega)]
  have h : (min (k : Int) (xs.length : Int)).toNat = min k xs.length := by omega
  rw [h]

theorem pySliceTo_neg_coe (n : Nat) (hn : 1 ≤ n) (xs : List α) :
    pySliceTo (-(n : Int)) xs = xs.take (xs.length - n) := by
  unfold pySliceTo
  rw [if_neg (by omega)]
  have h : (-(n : Int)).natAbs = n := by omega
  rw [h]

/-- Sample successful extraction fields. -/
def fieldsA : ArticleFields :=
  { title := "Alpha news"
    text := "Body text"
    summary := "Short"
    keywords := ["k1", "k2"]
    authors := ["a"]
    publish_date := some "2024-01-01"
    top_image := "img"
    images := []
    movies := []
    meta_description := ""
    meta_lang := "en"
    meta_favicon := ""
    meta_keywords := []
    canonical_link := "c" }

/-- An extraction oracle that always succeeds with `fieldsA`. -/
def oracleOk : ExtractOracle := fun _ _ => .ok fieldsA

/-- A feed entry with a link and full metadata. -/
def entryA : FeedEntry :=
  { link := some "http://a", title := some "A", published := some "p", summary := some "s" }

/-- A feed entry lacking a link. -/
def entryNoLink : FeedEntry :=
  { link := none, title := some "N", published := none, summary := none }

/-- A feed entry with a link and no other metadata. -/
def entryB : FeedEntry :=
  { link := some "http://b", title := none, published := none, summary := none }

/-- A three-entry feed where the middle entry lacks a link. -/
def feedMixedEntries : List FeedEntry := [entryA, entryNoLink, entryB]

/-- A feed reader serving `feedMixedEntries` for every URL. -/
def feedMixed : FeedReader := fun _ => .ok feedMixedEntries

/-- A feed reader serving two linked entries. -/
def feedTwoLinks : FeedReader := fun _ => .ok [entryA, entryB]

/-- A feed reader whose feeds all have zero entries. -/
def feedEmpty : FeedReader := fun _ => .ok []

/-- A feed reader that always raises. -/
def feedBroken : FeedReader := fun _ => .error "boom"

/-- C4: a feed that cannot be read or yields zero entries produces a
terminal feed-error result carrying the feed URL and a reason — not an
empty success list — and the invocation performs no extraction calls (its
effect trace is empty). -/
theorem discover_feed_error_terminal (o : ExtractOracle) (rf : FeedReader)
    (rss_url : String) (max_articles : Int) :
    (rf rss_url = .ok [] →
      discover_news_from_rss o rf rss_url max_articles =
        (.feedError rss_url "No entries found in RSS feed", [])) ∧
    (∀ e, rf rss_url = .error e →
      discover_news_from_rss o rf rss_url max_articles =
        (.feedError rss_url ("RSS parsing error: " ++ e), [])) := by
  constructor
  · intro h
    simp [discover_news_from_rss, h]
  · intro e h
    simp [discover_news_from_rss, h]

/-- C4 witness: a concrete zero-entry feed yields the terminal feed-error
object with an empty effect trace. -/
theorem discover_feed_error_terminal_witness :
    discover_news_from_rss oracleOk feedEmpty "f" 10 =
      (.feedError "f" "No entries found in RSS feed", []) :=
  (discover_feed_error_terminal oracleOk feedEmpty "f" 10).1 rfl

/-- C5: on a nonempty feed, `discover_news_from_rss` processes exactly the
first `min(maxArticles, entryCount)` entries in feed order; each selected
entry with a link contributes its extraction result plus feed metadata
(`entryRecord`), entries without a link contribute nothing, and for
`maxArticles = k ≤ entryCount` the result has exactly `k` records minus
the selected entries lacking a link. -/
theorem discover_caps_and_skips (o : ExtractOracle) (rf : FeedReader)
    (url : String) (entries : List FeedEntry) (k : Nat)
    (hok : rf url = .ok entries) (hne : entries ≠ []) :
    (discover_news_from_rss o rf url (k : Int)).1 =
      .records ((entries.take (min k entries.length)).filterMap (entryRecord o)) ∧
    ((entries.take (min k entries.length)).filterMap (entryRecord o)).length =
      min k entries.length -
        (entries.take (min k entries.length)).countP (fun e => e.link.isNone) ∧
    (k ≤ entries.length →
      ((entries.take k).filterMap (entryRecord o)).length =
        k - (entries.take k).countP (fun e => e.link.isNone)) := by
  have hemp : entries.isEmpty = false := by
    cases entries
    · exact absurd rfl hne
    · rfl
  have hslice := pySliceTo_coe_min k entries
  refine ⟨?_, ?_, ?_⟩
  · simp [discover_news_from_rss, hok, hemp, hslice, discoverLoop_fst]
  · rw [length_filterMap_entryRecord, countP_link_isSome_eq_sub, List.length_take]
    omega
  · intro hk
    rw [length_filterMap_entryRecord, countP_link_isSome_eq_sub, List.length_take]
    omega

/-- C5 witness: on the concrete three-entry feed (middle entry linkless)
with `maxArticles = 2`, the result is the filterMap over the first two
entries, and its length is `2` minus the one selected linkless entry. -/
theorem discover_caps_and_skips_witness :
    (discover_news_from_rss oracleOk feedMixed "f" ((2 : Nat) : Int)).1 =
      .records ((feedMixedEntries.take (min 2 feedMixedEntries.length)).filterMap
        (entryRecord oracleOk)) ∧
    ((feedMixedEntries.take 2).filterMap (entryRecord oracleOk)).length =
      2 - (feedMixedEntries.take 2).countP (fun e => e.link.isNone) :=
  ⟨(discover_caps_and_skips oracleOk feedMixed "f" feedMixedEntries 2 rfl
      (by decide)).1,
   (discover_caps_and_skips oracleOk feedMixed "f" feedMixedEntries 2 rfl
      (by decide)).2.2 (by decide)⟩

/-- C10: on a nonempty feed, `max_articles = 0` yields an empty success
list (not a feed error) with no extraction calls; a negative
`max_articles = -n` selects all but the last `n` entries (Python slice
semantics of `entries[:min(-n, entryCount)]`), so up to
`entryCount - n` entries are extracted rather than none. -/
theorem discover_zero_and_negative_cap (o : ExtractOracle) (rf : FeedReader)
    (url : String) (entries : List FeedEntry)
    (hok : rf url = .ok entries) (hne : entries ≠ []) :
    discover_news_from_rss o rf url 0 = (.records [], []) ∧
    ∀ n : Nat, 1 ≤ n →
      (discover_news_from_rss o rf url (-(n : Int))).1 =
        .records ((entries.take (entries.length - n)).filterMap (entryRecord o)) ∧
      ((discover_news_from_rss o rf url (-(n : Int))).2).countP Event.isExtract =
        (entries.take (entries.length - n)).countP (fun e => e.link.isSome) ∧
      (entries.take (entries.length - n)).countP (fun e => e.link.isSome) ≤
        entries.length - n := by
  have hemp : entries.isEmpty = false := by
    cases entries
    · exact absurd rfl hne
    · rfl
  constructor
  · have h0 : min (0 : Int) (entries.length : Int) = 0 := by omega
    simp [discover_news_from_rss, hok, hemp, h0, pySliceTo, discoverLoop]
  · intro n hn
    have hmin : min (-(n : Int)) (entries.length : Int) = -(n : Int) := by omega
    have hslice := pySliceTo_neg_coe n hn entries
    refine ⟨?_, ?_, ?_⟩
    · simp [discover_news_from_rss, hok, hemp, hmin, hslice, discoverLoop_fst]
    · simp [discover_news_from_rss, hok, hemp, hmin, hslice, discoverLoop_extract_count]
    · have hle : (entries.take (entries.length - n)).countP (fun e => e.link.isSome) ≤
          (entries.take (entries.length - n)).length := List.countP_le_length _
      rw [List.length_take] at hle
      omega

/-- C10 witness: on the concrete three-entry feed, `max_articles = 0`
yields the empty record list with an empty trace, and `max_articles = -1`
selects the first two entries. -/
theorem discover_zero_and_negative_cap_witness :
    discover_news_from_rss oracleOk feedMixed "f" 0 = (.records [], []) ∧
    (discover_news_from_rss oracleOk feedMixed "f" (-((1 : Nat) : Int))).1 =
      .records ((feedMixedEntries.take (feedMixedEntries.length - 1)).filterMap
        (entryRecord oracleOk)) :=
  ⟨(discover_zero_and_negative_cap oracleOk feedMixed "f" feedMixedEntries rfl
      (by decide)).1,
   ((discover_zero_and_negative_cap oracleOk feedMixed "f" feedMixedEntries rfl
      (by decide)).2 1 (by decide)).1⟩

/-- C8: within one `discover_news_from_rss` invocation, any two extraction
calls in the effect trace are separated by a politeness delay event: a
`sleep` occurs strictly between every pair of extraction events. -/
theorem discover_pacing (o : ExtractOracle) (rf : FeedReader) (url : String)
    (max_articles : Int) (i j : Nat) (u v : String) (hij : i < j)
    (hi : ((discover_news_from_rss o rf url max_articles).2)[i]? =
      some (Event.extract u))
    (hj : ((discover_news_from_rss o rf url max_articles).2)[j]? =
      some (Event.extract v)) :
    ∃ k, i < k ∧ k < j ∧
      ((discover_news_from_rss o rf url max_articles).2)[k]? =
        some Event.sleep := by
  have hstep : ∀ (a : Nat) (w : String),
      ((discover_news_from_rss o rf url max_articles).2)[a]? =
        some (Event.extract w) →
      ((discover_news_from_rss o rf url max_articles).2)[a + 1]? =
        some Event.sleep := by
    cases hfeed : rf url with
    | error e =>
        intro a w h
        simp [discover_news_from_rss, hfeed] at h
    | ok entries =>
        by_cases hemp : entries.isEmpty = true
        · intro a w h
          simp [discover_news_from_rss, hfeed, hemp] at h
        · intro a w h
          simp only [discover_news_from_rss, hfeed, hemp, if_false,
            Bool.false_eq_true, if_neg] at h ⊢
          exact discoverLoop_extract_next_sleep o _ a w h
  have hs := hstep i u hi
  refine ⟨i + 1, Nat.lt_succ_self i, ?_, hs⟩
  rcases Nat.lt_or_ge (i + 1) j with h | h
  · exact h
  · exfalso
    have hje : j = i + 1 := Nat.le_antisymm h (Nat.succ_le_of_lt hij)
    rw [hje, hs] at hj
    simp at hj

/-- C8 witness: on a concrete two-entry feed, the extraction events at
trace positions 0 and 2 have a sleep strictly between them. -/
theorem discover_pacing_witness :
    ∃ k, 0 < k ∧ k < 2 ∧
      ((discover_news_from_rss oracleOk feedTwoLinks "f" 2).2)[k]? =
        some Event.sleep :=
  discover_pacing oracleOk feedTwoLinks "f" 2 0 2 "http://a" "http://b"
    (by decide) (by decide) (by decide)

/-- Did this feed's discovery produce a record list (rather than the
terminal feed-error object)? -/
def discoveredOk (o : ExtractOracle) (rf : FeedReader) (feed : String)
    (max_results : Int) : Bool :=
  match (discover_news_from_rss o rf feed max_results).1 with
  | .records _ => true
  | .feedError _ _ => false

theorem mergeFeeds_eq_flatMap (o : ExtractOracle) (rf : FeedReader)
    (feeds : List String) (max_results : Int) :
    mergeFeeds o rf feeds max_results =
      feeds.flatMap (fun f => feedRecords o rf f max_results) := by
  induction feeds with
  | nil => rfl
  | cons f rest ih => simp [mergeFeeds, ih]

theorem mergeFeeds_eq_successful_only (o : ExtractOracle) (rf : FeedReader)
    (feeds : List String) (max_results : Int) :
    mergeFeeds o rf feeds max_results =
      (feeds.filter (fun f => discoveredOk o rf f max_results)).flatMap
        (fun f => feedRecords o rf f max_results) := by
  induction feeds with
  | nil => rfl
  | cons f rest ih =>
      by_cases h : discoveredOk o rf f max_results = true
      · simp [mergeFeeds, List.filter_cons, h, ih]
      · have hnil : feedRecords o rf f max_results = [] := by
          unfold discoveredOk at h
          unfold feedRecords
          cases hd : (discover_news_from_rss o rf f max_results).1 <;>
            simp [hd] at h ⊢
        simp [mergeFeeds, List.filter_cons, h, ih, hnil]

theorem pySliceTo_coe (k : Nat) (xs : List α) :
    pySliceTo (k : Int) xs = xs.take k := by
  unfold pySliceTo
  rw [if_pos (by omega)]
  have h : ((k : Int)).toNat = k := by omega
  rw [h]

/-- C9: a feed whose discovery ends in a terminal feed error contributes
zero records to `search_and_extract_news`'s merged aggregation and does
not abort the other feeds: removing it from the input list leaves both the
merged list and the search result unchanged, and in general the merge is
the in-order concatenation of the record lists of exactly the feeds that
discovered successfully. -/
theorem search_skips_failed_feeds (o : ExtractOracle) (rf : FeedReader)
    (query : String) (max_results : Int) (pre post : List String)
    (bad u err : String)
    (hbad : (discover_news_from_rss o rf bad max_results).1 = .feedError u err) :
    feedRecords o rf bad max_results = [] ∧
    mergeFeeds o rf (pre ++ bad :: post) max_results =
      mergeFeeds o rf (pre ++ post) max_results ∧
    search_and_extract_news o rf query (some (pre ++ bad :: post)) max_results =
      search_and_extract_news o rf query (some (pre ++ post)) max_results ∧
    ∀ feeds : List String,
      mergeFeeds o rf feeds max_results =
        (feeds.filter (fun f => discoveredOk o rf f max_results)).flatMap
          (fun f => feedRecords o rf f max_results) := by
  have hnil : feedRecords o rf bad max_results = [] := by
    unfold feedRecords
    rw [hbad]
  have hmerge : mergeFeeds o rf (pre ++ bad :: post) max_results =
      mergeFeeds o rf (pre ++ post) max_results := by
    induction pre with
    | nil => simp [mergeFeeds, hnil]
    | cons f rest ih => simp [mergeFeeds, ih]
  refine ⟨hnil, hmerge, ?_, fun feeds => mergeFeeds_eq_successful_only o rf feeds max_results⟩
  simp [search_and_extract_news, hmerge]

/-- C9 witness: with a concrete broken feed between two good feeds, the
failed feed contributes nothing and the search result equals the search
over the two good feeds alone. -/
theorem search_skips_failed_feeds_witness :
    feedRecords oracleOk feedBroken "bad" 5 = [] ∧
    mergeFeeds oracleOk feedBroken (["g1"] ++ "bad" :: ["g2"]) 5 =
      mergeFeeds oracleOk feedBroken (["g1"] ++ ["g2"]) 5 :=
  ⟨(search_skips_failed_feeds oracleOk feedBroken "q" 5 ["g1"] ["g2"] "bad"
      "bad" ("RSS parsing error: " ++ "boom") (by decide)).1,
   (search_skips_failed_feeds oracleOk feedBroken "q" 5 ["g1"] ["g2"] "bad"
      "bad" ("RSS parsing error: " ++ "boom") (by decide)).2.1⟩

/-- C1: for a nonnegative result cap, `search_and_extract_news` returns
exactly the first `maxResults` matching records of the merged list — the
feeds' record lists concatenated in input order with each feed's internal
order preserved — so its length is at most `maxResults` and every returned
record has `success = true` and satisfies the case-insensitive substring
query-match predicate on title, body text, or auto-summary. -/
theorem search_filters_and_caps (o : ExtractOracle) (rf : FeedReader)
    (query : String) (feeds : List String) (max_results : Int)
    (hmr : 0 ≤ max_results) :
    search_and_extract_news o rf query (some feeds) max_results =
      ((mergeFeeds o rf feeds max_results).filter
        (fun a => articleMatches (pyLower query) a)).take max_results.toNat ∧
    mergeFeeds o rf feeds max_results =
      feeds.flatMap (fun f => feedRecords o rf f max_results) ∧
    (search_and_extract_news o rf query (some feeds) max_results).length ≤
      max_results.toNat ∧
    ∀ a ∈ search_and_extract_news o rf query (some feeds) max_results,
      a.success = true ∧ articleMatches (pyLower query) a = true := by
  have heq : search_and_extract_news o rf query (some feeds) max_results =
      ((mergeFeeds o rf feeds max_results).filter
        (fun a => articleMatches (pyLower query) a)).take max_results.toNat := by
    simp [search_and_extract_news, pySliceTo, hmr]
  refine ⟨heq, mergeFeeds_eq_flatMap o rf feeds max_results, ?_, ?_⟩
  · rw [heq]
    exact List.length_take_le _ _
  · intro a ha
    rw [heq] at ha
    have hmem := List.take_subset _ _ ha
    have hflt := (List.mem_filter.mp hmem).2
    refine ⟨?_, hflt⟩
    have h2 := hflt
    simp only [articleMatches, Bool.and_eq_true] at h2
    exact h2.1

/-- C1 witness: a concrete search over two feeds with cap 1 equals the
capped filter of the merged list and respects the cap. -/
theorem search_filters_and_caps_witness :
    search_and_extract_news oracleOk feedTwoLinks "Alpha" (some ["f1", "f2"]) 1 =
      ((mergeFeeds oracleOk feedTwoLinks ["f1", "f2"] 1).filter
        (fun a => articleMatches (pyLower "Alpha") a)).take (1 : Int).toNat ∧
    (search_and_extract_news oracleOk feedTwoLinks "Alpha" (some ["f1", "f2"]) 1).length ≤
      (1 : Int).toNat :=
  ⟨(search_filters_and_caps oracleOk feedTwoLinks "Alpha" ["f1", "f2"] 1
      (by decide)).1,
   (search_filters_and_caps oracleOk feedTwoLinks "Alpha" ["f1", "f2"] 1
      (by decide)).2.2.1⟩

/-- Sample successful extraction with an empty auto-summary, forcing the
fallback summary path of `get_news_summary`. -/
def fieldsNoSummary : ArticleFields :=
  { fieldsA with summary := "", text := "A. B. C. D." }

/-- An extraction oracle that always succeeds with `fieldsNoSummary`. -/
def oracleNoSummary : ExtractOracle := fun _ _ => .ok fieldsNoSummary

theorem append_dot_ne_empty (s : String) : s ++ "." ≠ "" := by
  intro h
  have hlen := congrArg String.length h
  rw [String.length_append] at hlen
  have h1 : ("." : String).length = 1 := rfl
  have h0 : ("" : String).length = 0 := rfl
  omega

theorem get_news_summary_fallback (o : ExtractOracle) (url : String)
    (a : ArticleFields) (hok : o url "en" = .ok a) (hsum : a.summary = "")
    (m : Int) :
    summaryText (get_news_summary o url m) =
      some (String.mk (joinDotSpace (pySliceTo m (splitDotSpace a.text.data))) ++ ".") := by
  simp [get_news_summary, crawl_news_article, hok, hsum, summaryText]

/-- C6: when extraction succeeds with an empty auto-summary and
`summaryLength` is positive, `get_news_summary` falls back to splitting
the body text on the literal `". "`, taking the first `summaryLength`
fragments, rejoining them with `". "`, and appending a trailing period;
the parameter defaults to 5. -/
theorem summary_fallback_positive (o : ExtractOracle) (url : String)
    (a : ArticleFields) (n : Nat)
    (hok : o url "en" = .ok a) (hsum : a.summary = "") (_hn : 1 ≤ n) :
    summaryText (get_news_summary o url (n : Int)) =
      some (String.mk (joinDotSpace ((splitDotSpace a.text.data).take n)) ++ ".") ∧
    default_summary_length = 5 := by
  refine ⟨?_, rfl⟩
  rw [get_news_summary_fallback o url a hok hsum (n : Int), pySliceTo_coe]

/-- C6 witness: body text `"A. B. C. D."` with `summaryLength = 2` yields
the fallback summary `"A. B."`. -/
theorem summary_fallback_positive_witness :
    summaryText (get_news_summary oracleNoSummary "u" ((2 : Nat) : Int)) =
      some "A. B." := by
  have h := (summary_fallback_positive oracleNoSummary "u" fieldsNoSummary 2
    rfl rfl (by decide)).1
  rw [h]
  rfl

/-- C7 counterexample: with a successful extraction of body text
`"A. B. C. D."` and an empty auto-summary, `summaryLength = 0` (a
non-positive value) yields the fallback summary `"."` — not the empty
string the claim asserts. -/
theorem summary_nonpositive_counterexample :
    summaryText (get_news_summary oracleNoSummary "u" 0) = some "." ∧
    ("." : String) ≠ "" := by
  constructor
  · rfl
  · decide

/-- C7 amended: a non-positive `summaryLength` never yields an empty
fallback summary: the result always ends in the trailing period, with
`summaryLength = 0` yielding exactly `"."` and `summaryLength = -n`
yielding the rejoining of all but the last `n` fragments plus the trailing
period. -/
theorem summary_nonpositive_not_empty (o : ExtractOracle) (url : String)
    (a : ArticleFields) (hok : o url "en" = .ok a) (hsum : a.summary = "") :
    (∀ m : Int, m ≤ 0 →
      ∃ s, summaryText (get_news_summary o url m) = some s ∧ s ≠ "") ∧
    summaryText (get_news_summary o url 0) = some "." ∧
    ∀ n : Nat, 1 ≤ n →
      summaryText (get_news_summary o url (-(n : Int))) =
        some (String.mk (joinDotSpace ((splitDotSpace a.text.data).take
          ((splitDotSpace a.text.data).length - n))) ++ ".") := by
  refine ⟨?_, ?_, ?_⟩
  · intro m _
    exact ⟨_, get_news_summary_fallback o url a hok hsum m, append_dot_ne_empty _⟩
  · rw [get_news_summary_fallback o url a hok hsum 0]
    have h2 : pySliceTo (0 : Int) (splitDotSpace a.text.data) = [] := by
      simp [pySliceTo]
    rw [h2]
    rfl
  · intro n hn
    rw [get_news_summary_fallback o url a hok hsum (-(n : Int)),
      pySliceTo_neg_coe n hn]

/-- C7 amended witness: at `summaryLength = -2` on the concrete record the
fallback summary exists and is nonempty. -/
theorem summary_nonpositive_not_empty_witness :
    ∃ s, summaryText (get_news_summary oracleNoSummary "u" (-2 : Int)) = some s ∧
      s ≠ "" :=
  (summary_nonpositive_not_empty oracleNoSummary "u" fieldsNoSummary rfl rfl).1
    (-2) (by decide)
